import Mathlib

/-!
# Delete-game request handler (`backend/game/delete/main.go`)

A shallow embedding of `Handler` and of the parts of Go's `encoding/base64`
(`StdEncoding`) that it calls, followed by theorems about the handler.

Conventions of the embedding

* A Go `string` is a sequence of bytes: `GoString := List (Fin 256)`.
  `lit` turns a source literal into its UTF-8 bytes.
* A Go `map[string]string` is an association list read with `List.lookup`
  (`v, ok := m[k]` is `some v` / `none`).
* A Go `error` value is an element of `GoError`; the `nil` error is `none`.
* Side effects (the two logging calls and the call of the storage
  collaborator) are recorded, in order, in the `trace` of a `World`, which also
  carries the collaborator's own state.
* `api.GetUserInfo`, `api.Failure` and `api.Success` are declared outside this
  source file and are taken as parameters (`Api`).
-/

/-! ## Strings -/

/-- One byte. -/
abbrev Byte := Fin 256

/-- Go `string`: an arbitrary sequence of bytes. -/
abbrev GoString := List Byte

/-- The bytes (UTF-8) of a string literal of the source. -/
def lit (s : String) : GoString :=
  s.toList.flatMap (fun c => (String.utf8EncodeChar c).map (fun b => b.val))

/-! ## Errors -/

/-- Modelled from the spec: the error values of the handler. The package
`backend/api/errors` is not part of the source file; the spec describes a
failure as "status code, error message, optional cause chain", and the handler
builds its errors with `errors.New(code, publicMessage, privateMessage)` and
`errors.Wrap(code, publicMessage, privateMessage, cause)`.
`CorruptInputError` is `base64.CorruptInputError` (the offset of the offending
input byte) and `Foreign` stands for any other error value a collaborator may
return, identified by its message. -/
inductive GoError where
  | CorruptInputError (offset : Int)
  | New (code : Int) (publicMessage privateMessage : GoString)
  | Wrap (code : Int) (publicMessage privateMessage : GoString) (cause : GoError)
  | Foreign (message : GoString)
  deriving DecidableEq, Repr

namespace GoError

/-- Status code carried by an error built by `errors.New` / `errors.Wrap`. -/
def Code : GoError → Option Int
  | New c _ _ => some c
  | Wrap c _ _ _ => some c
  | _ => none

/-- Public message carried by an error built by `errors.New` / `errors.Wrap`. -/
def PublicMessage : GoError → Option GoString
  | New _ m _ => some m
  | Wrap _ m _ _ => some m
  | _ => none

/-- Wrapped cause of an error built by `errors.Wrap`. -/
def Cause : GoError → Option GoError
  | Wrap _ _ _ e => some e
  | _ => none

end GoError

/-! ## `encoding/base64`, `StdEncoding` -/

namespace base64

/-- The constant `encodeStd`: alphabet of the standard encoding. -/
def encodeStd : GoString :=
  lit "ABCDEFGHIJKLMNOPQRSTUVWXYZabcdefghijklmnopqrstuvwxyz0123456789+/"

/-- The constant `StdPadding`, the character `=`. -/
def StdPadding : Byte := 61

/-- The table `enc.encode` of `StdEncoding`: the alphabet indexed by a 6-bit
value. -/
def encode (i : Nat) : Byte := encodeStd.getD i 0

/-- The table `enc.decodeMap` of `StdEncoding`: `0xff` everywhere except at the
bytes of the alphabet, which map to their index. -/
def decodeMap (c : Byte) : Nat :=
  if encodeStd.indexOf c < encodeStd.length then encodeStd.indexOf c else 0xff

/-- The local array `dbuf [4]byte` of `decodeQuantum`. -/
structure Dbuf where
  d0 : Nat
  d1 : Nat
  d2 : Nat
  d3 : Nat
  deriving DecidableEq, Repr

/-- Assignment `dbuf[j] = out`. -/
def Dbuf.set (d : Dbuf) (j : Nat) (out : Nat) : Dbuf :=
  match j with
  | 0 => { d with d0 := out }
  | 1 => { d with d1 := out }
  | 2 => { d with d2 := out }
  | 3 => { d with d3 := out }
  | _ => d

/-- Result of one call of `decodeQuantum`: the new source index `nsi`, the
bytes written to `dst` (`out`, of length `n`), the error, and the unread
remainder `src[nsi:]`. -/
structure Quantum where
  nsi : Nat
  out : List Byte
  err : Option GoError
  rest : GoString
  deriving DecidableEq, Repr

/-- The conversion at the end of `decodeQuantum`: "Convert 4x 6bit source bytes
into 3 bytes", then the `switch dlen` with its fallthroughs (`enc.strict` is
false for `StdEncoding`); the result is `dst[0:dlen-1]`. -/
def convert (dbuf : Dbuf) (dlen : Nat) : List Byte :=
  let val := dbuf.d0 <<< 18 ||| dbuf.d1 <<< 12 ||| dbuf.d2 <<< 6 ||| dbuf.d3
  let b2 : Byte := ⟨(val >>> 0) % 256, Nat.mod_lt _ (by decide)⟩
  let b1 : Byte := ⟨(val >>> 8) % 256, Nat.mod_lt _ (by decide)⟩
  let b0 : Byte := ⟨(val >>> 16) % 256, Nat.mod_lt _ (by decide)⟩
  match dlen with
  | 4 => [b0, b1, b2]
  | 3 => [b0, b1]
  | 2 => [b0]
  | _ => []

/-- The loop `for si < len(src) && (src[si] == '\n' || src[si] == '\r') { si++ }`
on the unread remainder of the source. -/
def skipNewlines : GoString → Nat → GoString × Nat
  | [], si => ([], si)
  | c :: rest, si =>
    if c = 10 ∨ c = 13 then skipNewlines rest (si + 1) else (c :: rest, si)

/-- The end of the padding branch of `decodeQuantum`: skip over newlines, flag
trailing garbage, `dlen = j`, leave the loop and convert. -/
def finishPadding (rest : GoString) (si j : Nat) (dbuf : Dbuf) : Quantum :=
  let (rest, si) := skipNewlines rest si
  let err := if rest ≠ [] then some (GoError.CorruptInputError si) else none
  { nsi := si, out := convert dbuf j, err := err, rest := rest }

/-- The loop `for j := 0; j < len(dbuf); j++` of `decodeQuantum` together with
the conversion that follows it. `rest` is `src[si:]` and `srcLen` is `len(src)`.
A newline leaves `j` unchanged (`j--` then `j++`). -/
def decodeQuantumLoop (srcLen : Nat) : GoString → Nat → Nat → Dbuf → Quantum
  | [], si, j, dbuf =>
    if 4 ≤ j then { nsi := si, out := convert dbuf 4, err := none, rest := [] }
    else if j = 0 then { nsi := si, out := [], err := none, rest := [] }
    else { nsi := si, out := [], err := some (.CorruptInputError (si - j)), rest := [] }
  | c :: rest, si, j, dbuf =>
    if 4 ≤ j then { nsi := si, out := convert dbuf 4, err := none, rest := c :: rest }
    else
      let si := si + 1
      let out := decodeMap c
      if out ≠ 0xff then decodeQuantumLoop srcLen rest si (j + 1) (dbuf.set j out)
      else if c = 10 ∨ c = 13 then decodeQuantumLoop srcLen rest si j dbuf
      else if c ≠ StdPadding then
        { nsi := si, out := [], err := some (.CorruptInputError (si - 1)), rest := rest }
      else
        match j with
        | 0 | 1 =>
          { nsi := si, out := [], err := some (.CorruptInputError (si - 1)), rest := rest }
        | 2 =>
          match skipNewlines rest si with
          | ([], si) =>
            { nsi := si, out := [], err := some (.CorruptInputError srcLen), rest := [] }
          | (p :: rest, si) =>
            if p ≠ StdPadding then
              { nsi := si, out := [], err := some (.CorruptInputError (si - 1)),
                rest := p :: rest }
            else finishPadding rest (si + 1) j dbuf
        | _ => finishPadding rest si j dbuf

/-- The method `decodeQuantum(dst, src, si)`, with `rest = src[si:]`. -/
def decodeQuantum (srcLen : Nat) (rest : GoString) (si : Nat) : Quantum :=
  decodeQuantumLoop srcLen rest si 0 ⟨0, 0, 0, 0⟩

/-- The loop `for si < len(src)` of `Decode`: decode quantum after quantum,
stop at the first error. `dst` holds the `n` bytes written so far. The two
fast-path loops of `Decode` (eight, then four alphabet bytes at a time, falling
back to `decodeQuantum`) write the same bytes as this loop and are not modelled
separately. `fuel` bounds the number of iterations. -/
def decodeLoop (srcLen : Nat) : Nat → GoString → Nat → List Byte → List Byte × Option GoError
  | 0, _, _, dst => (dst, none)
  | _ + 1, [], _, dst => (dst, none)
  | fuel + 1, c :: rest, si, dst =>
    let q := decodeQuantum srcLen (c :: rest) si
    match q.err with
    | some e => (dst ++ q.out, some e)
    | none => decodeLoop srcLen fuel q.rest q.nsi (dst ++ q.out)

/-- Method `Decode` followed by `dbuf[:n]`: the decoded bytes and the error. -/
def Decode (src : GoString) : List Byte × Option GoError :=
  decodeLoop src.length src.length src 0 []

/-- Function `base64.StdEncoding.DecodeString`. -/
def StdEncoding.DecodeString (s : GoString) : List Byte × Option GoError :=
  Decode s

/-- Function `base64.StdEncoding.EncodeToString` (method `Encode`): three source
bytes give four alphabet bytes; a remainder of one or two bytes is padded. -/
def StdEncoding.EncodeToString : List Byte → GoString
  | [] => []
  | [s0] =>
    let val := s0.val <<< 16
    [encode (val >>> 18 &&& 0x3F), encode (val >>> 12 &&& 0x3F), StdPadding, StdPadding]
  | [s0, s1] =>
    let val := s0.val <<< 16 ||| s1.val <<< 8
    [encode (val >>> 18 &&& 0x3F), encode (val >>> 12 &&& 0x3F),
     encode (val >>> 6 &&& 0x3F), StdPadding]
  | s0 :: s1 :: s2 :: src =>
    let val := s0.val <<< 16 ||| s1.val <<< 8 ||| s2.val
    encode (val >>> 18 &&& 0x3F) :: encode (val >>> 12 &&& 0x3F) ::
      encode (val >>> 6 &&& 0x3F) :: encode (val &&& 0x3F) :: StdEncoding.EncodeToString src

end base64

/-! ## Request, collaborators and world -/

/-- The field `RequestContext` of `api.Request`; only `RequestID` is read. -/
structure RequestContext where
  RequestID : GoString
  deriving DecidableEq, Repr

/-- The type `api.Request`. The handler reads `RequestContext.RequestID` and
`PathParameters`; every other field of the event (headers, body, authorizer
data, ...) is kept in `Other`, whose type is a parameter. -/
structure Request (Rest : Type) where
  RequestContext : RequestContext
  PathParameters : List (GoString × GoString)
  Other : Rest
  deriving DecidableEq, Repr

/-- The value returned by `api.GetUserInfo`; only `Username` is read. -/
structure UserInfo where
  Username : GoString
  deriving DecidableEq, Repr

/-- An observable effect of the handler. -/
inductive Event (Rest : Type) where
  | SetRequestId (requestId : GoString)
  | Infof (format : GoString) (event : Request Rest)
  | DeleteGame (username cohort id : GoString)
  deriving DecidableEq, Repr

/-- State threaded through the handler: the state of the storage collaborator
and the effects performed so far, oldest first. -/
structure World (σ Rest : Type) where
  db : σ
  trace : List (Event Rest)

/-- The functions of package `api` used by the handler. They are declared
outside the source file and are parameters of the embedding. -/
structure Api (Rest Game Response : Type) where
  GetUserInfo : Request Rest → UserInfo
  Failure : GoError → Response
  Success : Game → Response

/-- The interface `database.GameDeleter`: `DeleteGame(username, cohort, id)`
returns a game and an error (`none` is `nil`) and may change the state of the
store. -/
structure GameDeleter (σ Game : Type) where
  DeleteGame : GoString → GoString → GoString → σ → (Game × Option GoError) × σ

namespace log

/-- Call `log.SetRequestId(id)`. -/
def SetRequestId {σ Rest : Type} (requestId : GoString) (w : World σ Rest) : World σ Rest :=
  { w with trace := w.trace ++ [Event.SetRequestId requestId] }

/-- Call `log.Infof(format, event)`. -/
def Infof {σ Rest : Type} (format : GoString) (event : Request Rest) (w : World σ Rest) :
    World σ Rest :=
  { w with trace := w.trace ++ [Event.Infof format event] }

end log

/-- Call `repository.DeleteGame(username, cohort, id)` through the
package-level variable `repository`: the call is recorded and the store moves
to its new state. -/
def callDeleteGame {σ Rest Game : Type} (repository : GameDeleter σ Game)
    (username cohort id : GoString) (w : World σ Rest) :
    (Game × Option GoError) × World σ Rest :=
  let r := repository.DeleteGame username cohort id w.db
  (r.1, { db := r.2, trace := w.trace ++ [Event.DeleteGame username cohort id] })

/-- Function `Handler(ctx, event)` of `backend/game/delete/main.go`. The unused
`ctx` is dropped; the result is the pair `(api.Response, error)` together with
the world after the call. -/
def Handler {σ Rest Game Response : Type} (api : Api Rest Game Response)
    (repository : GameDeleter σ Game) (event : Request Rest) (w : World σ Rest) :
    (Response × Option GoError) × World σ Rest :=
  let w := log.SetRequestId event.RequestContext.RequestID w
  let w := log.Infof (lit "Event: %#v") event w
  let info := api.GetUserInfo event
  let cohort := (event.PathParameters.lookup (lit "cohort")).getD (lit "")
  if cohort = lit "" then
    let err := GoError.New 400 (lit "Invalid request: cohort is required") (lit "")
    ((api.Failure err, none), w)
  else
    match event.PathParameters.lookup (lit "id") with
    | none =>
      let err := GoError.New 400 (lit "Invalid request: id is required") (lit "")
      ((api.Failure err, none), w)
    | some id =>
      match base64.StdEncoding.DecodeString id with
      | (_, some err) =>
        let err := GoError.Wrap 400 (lit "Invalid request: id is not base64 encoded") (lit "") err
        ((api.Failure err, none), w)
      | (b, none) =>
        let id := b
        match callDeleteGame repository info.Username cohort id w with
        | ((_, some err), w) => ((api.Failure err, none), w)
        | ((game, none), w) => ((api.Success game, none), w)

/-! ## Vocabulary of the properties -/

/-- The calls of `repository.DeleteGame` recorded in a trace, oldest first, each
with its arguments `(username, cohort, id)`. -/
def deleteCalls {Rest : Type} (t : List (Event Rest)) : List (GoString × GoString × GoString) :=
  t.filterMap (fun e =>
    match e with
    | Event.DeleteGame u c i => some (u, c, i)
    | _ => none)

/-- The path parameter `cohort` is present and not the empty string (the first
check of the handler passes). -/
def cohortGiven {Rest : Type} (event : Request Rest) : Prop :=
  (event.PathParameters.lookup (lit "cohort")).getD [] ≠ []

/-- The path parameter `id` is present (the second check passes). -/
def idPresent {Rest : Type} (event : Request Rest) : Prop :=
  event.PathParameters.lookup (lit "id") ≠ none

/-- The path parameter `id` is present and standard base64 decoding accepts it
(the third check passes). -/
def idDecodable {Rest : Type} (event : Request Rest) : Prop :=
  match event.PathParameters.lookup (lit "id") with
  | some i => (base64.StdEncoding.DecodeString i).2 = none
  | none => False

/-- The three checks of the handler all pass. -/
def passesValidation {Rest : Type} (event : Request Rest) : Prop :=
  cohortGiven event ∧ idPresent event ∧ idDecodable event

instance {Rest : Type} (event : Request Rest) : Decidable (cohortGiven event) := by
  unfold cohortGiven; infer_instance

instance {Rest : Type} (event : Request Rest) : Decidable (idPresent event) := by
  unfold idPresent; infer_instance

instance {Rest : Type} (event : Request Rest) : Decidable (idDecodable event) := by
  unfold idDecodable; split <;> infer_instance

instance {Rest : Type} (event : Request Rest) : Decidable (passesValidation event) := by
  unfold passesValidation; infer_instance

/-! ## Concrete collaborators, for evaluating the handler -/

/-- A response type with one constructor for each way `api` builds a response. -/
inductive SampleResponse where
  | failure (err : GoError)
  | success (game : GoString)
  deriving DecidableEq, Repr

/-- An `api` whose requests carry the caller's username in `Other`. -/
def sampleApi : Api GoString GoString SampleResponse :=
  { GetUserInfo := fun event => ⟨event.Other⟩
    Failure := SampleResponse.failure
    Success := SampleResponse.success }

/-- A store holding a list of `(username, cohort, id)` keys: deleting a stored
key removes it and returns its id as the record, deleting anything else is a
404 error. -/
def sampleRepository : GameDeleter (List (GoString × GoString × GoString)) GoString :=
  { DeleteGame := fun username cohort id db =>
      if (username, cohort, id) ∈ db then ((id, none), db.erase (username, cohort, id))
      else (([], some (GoError.New 404 (lit "Invalid request: game not found") [])), db) }

/-- A request by `username` with the given path parameters. -/
def sampleEvent (username : String) (pathParameters : List (String × String)) :
    Request GoString :=
  { RequestContext := ⟨lit "req-1"⟩
    PathParameters := pathParameters.map (fun p => (lit p.1, lit p.2))
    Other := lit username }

/-- A world whose store holds the game `game42` of `alice` in cohort
`1500-1600`, and in which nothing has happened yet. -/
def sampleWorld : World (List (GoString × GoString × GoString)) GoString :=
  { db := [(lit "alice", lit "1500-1600", lit "game42")], trace := [] }

/-! ## Lemmas about `encoding/base64` -/

namespace base64

theorem or_shift4 (a b c d : Nat) (hb : b < 64) (hc : c < 64) (hd : d < 64) :
    a <<< 18 ||| b <<< 12 ||| c <<< 6 ||| d = a * 262144 + b * 4096 + c * 64 + d := by
  have h1 : a <<< 18 ||| b <<< 12 = a * 262144 + b * 4096 := by
    have := Nat.mul_add_lt_is_or (i := 18) (b := b * 4096) (by omega) a
    simp only [Nat.shiftLeft_eq]
    rw [show a * 2 ^ 18 = 2 ^ 18 * a by ring, show b * 2 ^ 12 = b * 4096 by norm_num, ← this]
    omega
  have h2 : a * 262144 + b * 4096 ||| c <<< 6 = a * 262144 + b * 4096 + c * 64 := by
    have := Nat.mul_add_lt_is_or (i := 12) (b := c * 64) (by omega) (a * 64 + b)
    simp only [Nat.shiftLeft_eq]
    rw [show a * 262144 + b * 4096 = 2 ^ 12 * (a * 64 + b) by ring, show c * 2 ^ 6 = c * 64 by norm_num, ← this]
  have h3 : a * 262144 + b * 4096 + c * 64 ||| d = a * 262144 + b * 4096 + c * 64 + d := by
    have := Nat.mul_add_lt_is_or (i := 6) (b := d) (by omega) (a * 4096 + b * 64 + c)
    rw [show a * 262144 + b * 4096 + c * 64 = 2 ^ 6 * (a * 4096 + b * 64 + c) by ring, ← this]
  rw [h1, h2, h3]

theorem or_shift3 (a b c : Nat) (hb : b < 256) (hc : c < 256) :
    a <<< 16 ||| b <<< 8 ||| c = a * 65536 + b * 256 + c := by
  have h1 : a <<< 16 ||| b <<< 8 = a * 65536 + b * 256 := by
    have := Nat.mul_add_lt_is_or (i := 16) (b := b * 256) (by omega) a
    simp only [Nat.shiftLeft_eq]
    rw [show a * 2 ^ 16 = 2 ^ 16 * a by ring, show b * 2 ^ 8 = b * 256 by norm_num, ← this]
    omega
  have h3 : a * 65536 + b * 256 ||| c = a * 65536 + b * 256 + c := by
    have := Nat.mul_add_lt_is_or (i := 8) (b := c) (by omega) (a * 256 + b)
    rw [show a * 65536 + b * 256 = 2 ^ 8 * (a * 256 + b) by ring, ← this]
  rw [h1, h3]

theorem and_63 (x : Nat) : x &&& 0x3F = x % 64 := by
  have := Nat.and_pow_two_sub_one_eq_mod x 6
  simpa using this

set_option maxRecDepth 100000 in
theorem decodeMap_encode (i : Nat) (h : i < 64) : decodeMap (encode i) = i := by
  have : ∀ k : Fin 64, decodeMap (encode k.val) = k.val := by decide
  exact this ⟨i, h⟩


theorem decodeMap_StdPadding : decodeMap StdPadding = 0xff := by decide

/-- One full quantum of four alphabet bytes is consumed in one call. -/
theorem decodeQuantum_full (srcLen si k0 k1 k2 k3 : Nat) (rest : GoString)
    (h0 : k0 < 64) (h1 : k1 < 64) (h2 : k2 < 64) (h3 : k3 < 64) :
    decodeQuantum srcLen (encode k0 :: encode k1 :: encode k2 :: encode k3 :: rest) si =
      { nsi := si + 4, out := convert ⟨k0, k1, k2, k3⟩ 4, err := none, rest := rest } := by
  have e0 := decodeMap_encode k0 h0
  have e1 := decodeMap_encode k1 h1
  have e2 := decodeMap_encode k2 h2
  have e3 := decodeMap_encode k3 h3
  have n0 : k0 ≠ 255 := by omega
  have n1 : k1 ≠ 255 := by omega
  have n2 : k2 ≠ 255 := by omega
  have n3 : k3 ≠ 255 := by omega
  cases rest <;>
    simp [decodeQuantum, decodeQuantumLoop, e0, e1, e2, e3, n0, n1, n2, n3, Dbuf.set]

theorem decodeQuantum_pad1 (srcLen si k0 k1 k2 : Nat)
    (h0 : k0 < 64) (h1 : k1 < 64) (h2 : k2 < 64) :
    decodeQuantum srcLen [encode k0, encode k1, encode k2, StdPadding] si =
      { nsi := si + 4, out := convert ⟨k0, k1, k2, 0⟩ 3, err := none, rest := [] } := by
  have e0 := decodeMap_encode k0 h0
  have e1 := decodeMap_encode k1 h1
  have e2 := decodeMap_encode k2 h2
  have n0 : k0 ≠ 255 := by omega
  have n1 : k1 ≠ 255 := by omega
  have n2 : k2 ≠ 255 := by omega
  have hp : ¬ (StdPadding = 10 ∨ StdPadding = 13) := by decide
  simp [decodeQuantum, decodeQuantumLoop, e0, e1, e2, n0, n1, n2, Dbuf.set,
    decodeMap_StdPadding, hp, finishPadding, skipNewlines]

theorem decodeQuantum_pad2 (srcLen si k0 k1 : Nat) (h0 : k0 < 64) (h1 : k1 < 64) :
    decodeQuantum srcLen [encode k0, encode k1, StdPadding, StdPadding] si =
      { nsi := si + 4, out := convert ⟨k0, k1, 0, 0⟩ 2, err := none, rest := [] } := by
  have e0 := decodeMap_encode k0 h0
  have e1 := decodeMap_encode k1 h1
  have n0 : k0 ≠ 255 := by omega
  have n1 : k1 ≠ 255 := by omega
  have hp : ¬ (StdPadding = 10 ∨ StdPadding = 13) := by decide
  simp [decodeQuantum, decodeQuantumLoop, e0, e1, n0, n1, Dbuf.set,
    decodeMap_StdPadding, hp, finishPadding, skipNewlines]


theorem shr_and (x n : Nat) : x >>> n &&& 0x3F = x / 2 ^ n % 64 := by
  rw [and_63, Nat.shiftRight_eq_div_pow]

theorem sextets (v : Nat) :
    (v / 2 ^ 18 % 64) <<< 18 ||| (v / 2 ^ 12 % 64) <<< 12 ||| (v / 2 ^ 6 % 64) <<< 6 ||| v % 64
      = v % 16777216 := by
  rw [or_shift4 _ _ _ _ (Nat.mod_lt _ (by decide)) (Nat.mod_lt _ (by decide))
    (Nat.mod_lt _ (by decide))]
  norm_num
  omega

theorem convert_val (d0 d1 d2 d3 : Nat) (dlen : Nat) :
    convert ⟨d0, d1, d2, d3⟩ dlen =
      (match dlen with
       | 4 => [⟨((d0 <<< 18 ||| d1 <<< 12 ||| d2 <<< 6 ||| d3) / 65536) % 256, Nat.mod_lt _ (by decide)⟩,
               ⟨((d0 <<< 18 ||| d1 <<< 12 ||| d2 <<< 6 ||| d3) / 256) % 256, Nat.mod_lt _ (by decide)⟩,
               ⟨(d0 <<< 18 ||| d1 <<< 12 ||| d2 <<< 6 ||| d3) % 256, Nat.mod_lt _ (by decide)⟩]
       | 3 => [⟨((d0 <<< 18 ||| d1 <<< 12 ||| d2 <<< 6 ||| d3) / 65536) % 256, Nat.mod_lt _ (by decide)⟩,
               ⟨((d0 <<< 18 ||| d1 <<< 12 ||| d2 <<< 6 ||| d3) / 256) % 256, Nat.mod_lt _ (by decide)⟩]
       | 2 => [⟨((d0 <<< 18 ||| d1 <<< 12 ||| d2 <<< 6 ||| d3) / 65536) % 256, Nat.mod_lt _ (by decide)⟩]
       | _ => []) := by
  unfold convert
  simp only [Nat.shiftRight_eq_div_pow]
  norm_num

theorem convert_three (s0 s1 s2 : Byte) :
    convert ⟨(s0.val <<< 16 ||| s1.val <<< 8 ||| s2.val) >>> 18 &&& 0x3F,
             (s0.val <<< 16 ||| s1.val <<< 8 ||| s2.val) >>> 12 &&& 0x3F,
             (s0.val <<< 16 ||| s1.val <<< 8 ||| s2.val) >>> 6 &&& 0x3F,
             (s0.val <<< 16 ||| s1.val <<< 8 ||| s2.val) &&& 0x3F⟩ 4 = [s0, s1, s2] := by
  have b0 := s0.isLt
  have b1 := s1.isLt
  have b2 := s2.isLt
  rw [convert_val, shr_and, shr_and, shr_and, and_63, or_shift3 _ _ _ b1 b2]
  rw [sextets]
  simp only [List.cons.injEq, and_true, Fin.ext_iff]
  omega


theorem or_shift2 (a b : Nat) (hb : b < 256) : a <<< 16 ||| b <<< 8 = a * 65536 + b * 256 := by
  have := or_shift3 a b 0 hb (by decide)
  simpa using this

theorem convert_two (s0 s1 : Byte) :
    convert ⟨(s0.val <<< 16 ||| s1.val <<< 8) >>> 18 &&& 0x3F,
             (s0.val <<< 16 ||| s1.val <<< 8) >>> 12 &&& 0x3F,
             (s0.val <<< 16 ||| s1.val <<< 8) >>> 6 &&& 0x3F, 0⟩ 3 = [s0, s1] := by
  have b0 := s0.isLt
  have b1 := s1.isLt
  rw [convert_val, shr_and, shr_and, shr_and, or_shift2 _ _ b1]
  rw [or_shift4 _ _ _ _ (Nat.mod_lt _ (by decide)) (Nat.mod_lt _ (by decide)) (by decide)]
  simp only [List.cons.injEq, and_true, Fin.ext_iff]
  norm_num
  omega

theorem convert_one (s0 : Byte) :
    convert ⟨(s0.val <<< 16) >>> 18 &&& 0x3F, (s0.val <<< 16) >>> 12 &&& 0x3F, 0, 0⟩ 2 = [s0] := by
  have b0 := s0.isLt
  have e : s0.val <<< 16 = s0.val * 65536 := by rw [Nat.shiftLeft_eq]
  rw [convert_val, shr_and, shr_and, e]
  rw [or_shift4 _ _ _ _ (Nat.mod_lt _ (by decide)) (by decide) (by decide)]
  simp only [List.cons.injEq, and_true, Fin.ext_iff]
  norm_num
  omega

theorem length_le_EncodeToString (s : List Byte) :
    s.length ≤ (StdEncoding.EncodeToString s).length := by
  induction s using StdEncoding.EncodeToString.induct with
  | case1 => simp [StdEncoding.EncodeToString]
  | case2 s0 => simp [StdEncoding.EncodeToString]
  | case3 s0 s1 => simp [StdEncoding.EncodeToString]
  | case4 s0 s1 s2 src ih => simp [StdEncoding.EncodeToString]; omega

theorem decodeLoop_EncodeToString (srcLen : Nat) (s : List Byte) :
    ∀ (fuel si : Nat) (dst : List Byte), s.length ≤ fuel →
      decodeLoop srcLen fuel (StdEncoding.EncodeToString s) si dst = (dst ++ s, none) := by
  induction s using StdEncoding.EncodeToString.induct with
  | case1 =>
    intro fuel si dst _
    cases fuel <;> simp [StdEncoding.EncodeToString, decodeLoop]
  | case2 s0 =>
    intro fuel si dst h
    obtain ⟨f, rfl⟩ : ∃ f, fuel = f + 1 := ⟨fuel - 1, by simp at h; omega⟩
    simp only [StdEncoding.EncodeToString, decodeLoop]
    rw [decodeQuantum_pad2 _ _ _ _ (by rw [and_63]; exact Nat.mod_lt _ (by decide))
      (by rw [and_63]; exact Nat.mod_lt _ (by decide))]
    simp only [convert_one]
    cases f <;> simp [decodeLoop]
  | case3 s0 s1 =>
    intro fuel si dst h
    obtain ⟨f, rfl⟩ : ∃ f, fuel = f + 1 := ⟨fuel - 1, by simp at h; omega⟩
    simp only [StdEncoding.EncodeToString, decodeLoop]
    rw [decodeQuantum_pad1 _ _ _ _ _ (by rw [and_63]; exact Nat.mod_lt _ (by decide))
      (by rw [and_63]; exact Nat.mod_lt _ (by decide))
      (by rw [and_63]; exact Nat.mod_lt _ (by decide))]
    simp only [convert_two]
    cases f <;> simp [decodeLoop]
  | case4 s0 s1 s2 src ih =>
    intro fuel si dst h
    obtain ⟨f, rfl⟩ : ∃ f, fuel = f + 1 := ⟨fuel - 1, by simp at h; omega⟩
    simp only [StdEncoding.EncodeToString, decodeLoop]
    rw [decodeQuantum_full _ _ _ _ _ _ _ (by rw [and_63]; exact Nat.mod_lt _ (by decide))
      (by rw [and_63]; exact Nat.mod_lt _ (by decide))
      (by rw [and_63]; exact Nat.mod_lt _ (by decide))
      (by rw [and_63]; exact Nat.mod_lt _ (by decide))]
    simp only [convert_three]
    rw [ih f (si + 4) (dst ++ [s0, s1, s2]) (by simp at h; omega)]
    simp

/-- Decoding the standard encoding of a byte string gives the byte string back,
without error. -/
theorem DecodeString_EncodeToString (s : List Byte) :
    StdEncoding.DecodeString (StdEncoding.EncodeToString s) = (s, none) := by
  have := decodeLoop_EncodeToString (StdEncoding.EncodeToString s).length s
    (StdEncoding.EncodeToString s).length 0 [] (length_le_EncodeToString s)
  simpa [StdEncoding.DecodeString, Decode] using this


/-! ### Termination of the decoding loop -/

theorem skipNewlines_length (rest : GoString) :
    ∀ si, (skipNewlines rest si).1.length ≤ rest.length := by
  induction rest with
  | nil => intro si; simp [skipNewlines]
  | cons c rest ih =>
    intro si
    simp only [skipNewlines]
    split
    · exact Nat.le_succ_of_le (ih (si + 1))
    · simp

theorem finishPadding_rest_length (rest : GoString) (si j : Nat) (dbuf : Dbuf) :
    (finishPadding rest si j dbuf).rest.length ≤ rest.length := by
  have := skipNewlines_length rest si
  simpa [finishPadding] using this

theorem decodeQuantumLoop_rest_length (srcLen : Nat) (rest : GoString) :
    ∀ si j dbuf, (decodeQuantumLoop srcLen rest si j dbuf).rest.length ≤ rest.length := by
  induction rest with
  | nil => intro si j dbuf; simp only [decodeQuantumLoop]; split_ifs <;> simp
  | cons c rest ih =>
    intro si j dbuf
    simp only [decodeQuantumLoop]
    split_ifs
    · simp
    · exact Nat.le_succ_of_le (ih _ _ _)
    · exact Nat.le_succ_of_le (ih _ _ _)
    · simp
    · split
      · simp
      · simp
      · have hs := skipNewlines_length rest (si + 1)
        split
        · simp
        · rename_i p rest2 si2 heq
          rw [heq] at hs
          have hf := finishPadding_rest_length rest2 (si2 + 1) 2 dbuf
          split_ifs
          · simp at hs ⊢; omega
          · simp at hs ⊢; omega
      · exact Nat.le_succ_of_le (finishPadding_rest_length _ _ _ _)

/-- A call of `decodeQuantum` on a non-empty remainder reads at least one
byte. -/
theorem decodeQuantum_rest_length (srcLen : Nat) (c : Byte) (rest : GoString) (si : Nat) :
    (decodeQuantum srcLen (c :: rest) si).rest.length ≤ rest.length := by
  unfold decodeQuantum
  simp only [decodeQuantumLoop]
  split_ifs
  · omega
  · exact decodeQuantumLoop_rest_length _ _ _ _ _
  · exact decodeQuantumLoop_rest_length _ _ _ _ _
  · simp
  · simp

/-- The fuel given by `Decode` is never used up: with any two amounts of fuel
that are at least the length of the unread input the loop gives the same
result. -/
theorem decodeLoop_fuel (srcLen : Nat) :
    ∀ (f1 f2 : Nat) (rest : GoString) (si : Nat) (dst : List Byte),
      rest.length ≤ f1 → rest.length ≤ f2 →
      decodeLoop srcLen f1 rest si dst = decodeLoop srcLen f2 rest si dst := by
  intro f1
  induction f1 with
  | zero =>
    intro f2 rest si dst h1 _
    have : rest = [] := List.length_eq_zero.mp (Nat.le_zero.mp h1)
    subst this
    cases f2 <;> simp [decodeLoop]
  | succ f1 ih =>
    intro f2 rest si dst h1 h2
    cases rest with
    | nil => cases f2 <;> simp [decodeLoop]
    | cons c rest =>
      obtain ⟨g, rfl⟩ : ∃ g, f2 = g + 1 := ⟨f2 - 1, by simp at h2; omega⟩
      simp only [decodeLoop]
      have hq := decodeQuantum_rest_length srcLen c rest si
      split
      · rfl
      · exact ih g _ _ _ (by simp at h1; omega) (by simp at h2; omega)

/-- The loop of `Decode`, unfolded once: an empty remainder ends the loop, and
otherwise one quantum is decoded and the loop goes on with what is left. -/
theorem Decode_loop_step (srcLen fuel : Nat) (c : Byte) (rest : GoString) (si : Nat)
    (dst : List Byte) (h : (c :: rest).length ≤ fuel) :
    decodeLoop srcLen fuel (c :: rest) si dst =
      match (decodeQuantum srcLen (c :: rest) si).err with
      | some e => (dst ++ (decodeQuantum srcLen (c :: rest) si).out, some e)
      | none =>
        decodeLoop srcLen (decodeQuantum srcLen (c :: rest) si).rest.length
          (decodeQuantum srcLen (c :: rest) si).rest (decodeQuantum srcLen (c :: rest) si).nsi
          (dst ++ (decodeQuantum srcLen (c :: rest) si).out) := by
  obtain ⟨g, rfl⟩ : ∃ g, fuel = g + 1 := ⟨fuel - 1, by simp at h; omega⟩
  have hq := decodeQuantum_rest_length srcLen c rest si
  simp only [decodeLoop]
  split
  · rfl
  · exact decodeLoop_fuel srcLen _ _ _ _ _ (by simp at h; omega) (Nat.le_refl _)

end base64

/-! ### Bytes outside the alphabet -/

namespace base64

theorem skipNewlines_mem (x : Byte) (h10 : x ≠ 10) (h13 : x ≠ 13) (rest : GoString) :
    ∀ si, x ∈ rest → x ∈ (skipNewlines rest si).1 := by
  induction rest with
  | nil => intro si h; simp at h
  | cons c rest ih =>
    intro si h
    simp only [skipNewlines]
    split
    · rename_i hc
      have hx : x ≠ c := by
        rcases hc with hc | hc <;> rw [hc] <;> assumption
      rcases List.mem_cons.mp h with h | h
      · exact absurd h hx
      · exact ih _ h
    · exact h

theorem finishPadding_err (x : Byte) (h10 : x ≠ 10) (h13 : x ≠ 13) (rest : GoString)
    (si j : Nat) (dbuf : Dbuf) (h : x ∈ rest) : (finishPadding rest si j dbuf).err ≠ none := by
  have hm := skipNewlines_mem x h10 h13 rest si h
  have hne : (skipNewlines rest si).1 ≠ [] := List.ne_nil_of_mem hm
  simp [finishPadding, hne]

theorem decodeQuantumLoop_illegal (srcLen : Nat) (x : Byte) (hx : decodeMap x = 0xff)
    (h10 : x ≠ 10) (h13 : x ≠ 13) (hp : x ≠ StdPadding) (rest : GoString) :
    ∀ si j dbuf, x ∈ rest →
      (decodeQuantumLoop srcLen rest si j dbuf).err ≠ none ∨
        x ∈ (decodeQuantumLoop srcLen rest si j dbuf).rest := by
  induction rest with
  | nil => intro si j dbuf h; simp at h
  | cons c rest ih =>
    intro si j dbuf h
    simp only [decodeQuantumLoop]
    split_ifs with h4 hout hnl hpad
    · exact Or.inr h
    · have hxc : x ≠ c := fun e => hout (e ▸ hx)
      exact ih _ _ _ ((List.mem_cons.mp h).resolve_left hxc)
    · have hxc : x ≠ c := by
        rcases hnl with hc | hc <;> rw [hc] <;> assumption
      exact ih _ _ _ ((List.mem_cons.mp h).resolve_left hxc)
    · exact Or.inl (by simp)
    · have hc : c = StdPadding := not_not.mp hpad
      have hr : x ∈ rest := (List.mem_cons.mp h).resolve_left (fun e => hp (e.trans hc))
      split
      · exact Or.inl (by simp)
      · exact Or.inl (by simp)
      · have hm := skipNewlines_mem x h10 h13 rest (si + 1) hr
        split
        · exact Or.inl (by simp)
        · rename_i p rest2 si2 heq
          rw [heq] at hm
          split_ifs with hp2
          · exact Or.inl (by simp)
          · have hp3 : p = StdPadding := not_not.mp hp2
            have hr2 : x ∈ rest2 :=
              (List.mem_cons.mp hm).resolve_left (fun e => hp (e.trans hp3))
            exact Or.inl (finishPadding_err x h10 h13 rest2 _ _ _ hr2)
      · exact Or.inl (finishPadding_err x h10 h13 rest _ _ _ hr)

theorem decodeLoop_illegal (srcLen : Nat) (x : Byte) (hx : decodeMap x = 0xff)
    (h10 : x ≠ 10) (h13 : x ≠ 13) (hp : x ≠ StdPadding) :
    ∀ (fuel : Nat) (rest : GoString) (si : Nat) (dst : List Byte),
      rest.length ≤ fuel → x ∈ rest → (decodeLoop srcLen fuel rest si dst).2 ≠ none := by
  intro fuel
  induction fuel with
  | zero =>
    intro rest si dst hl h
    have : rest = [] := List.length_eq_zero.mp (Nat.le_zero.mp hl)
    subst this
    simp at h
  | succ fuel ih =>
    intro rest si dst hl h
    cases rest with
    | nil => simp at h
    | cons c rest =>
      simp only [decodeLoop]
      have hlen := decodeQuantum_rest_length srcLen c rest si
      have hq := decodeQuantumLoop_illegal srcLen x hx h10 h13 hp (c :: rest) si 0
        ⟨0, 0, 0, 0⟩ h
      change (decodeQuantum srcLen (c :: rest) si).err ≠ none ∨
        x ∈ (decodeQuantum srcLen (c :: rest) si).rest at hq
      split
      · simp
      · rename_i hnone
        rcases hq with hq | hq
        · exact absurd hnone hq
        · exact ih _ _ _ (by simp at hl; omega) hq

/-- An input that contains a byte which is neither in the alphabet, nor a
newline, nor the padding character (for instance `!`) is rejected. -/
theorem DecodeString_illegal_byte (s : GoString) (x : Byte) (hx : decodeMap x = 0xff)
    (h10 : x ≠ 10) (h13 : x ≠ 13) (hp : x ≠ StdPadding) (h : x ∈ s) :
    (StdEncoding.DecodeString s).2 ≠ none :=
  decodeLoop_illegal s.length x hx h10 h13 hp s.length s 0 [] (Nat.le_refl _) h

/-- An input that contains the byte `!` is rejected. -/
theorem DecodeString_bang (s : GoString) (h : (33 : Byte) ∈ s) :
    (StdEncoding.DecodeString s).2 ≠ none :=
  DecodeString_illegal_byte s 33 (by decide) (by decide) (by decide) (by decide) h

end base64

/-! ## The handler -/

section HandlerFacts

variable {σ Rest Game Response : Type}

theorem lit_empty : lit "" = [] := rfl

/-- The handler on a request whose `cohort` is absent or empty. -/
theorem Handler_cohort_missing (api : Api Rest Game Response) (repository : GameDeleter σ Game)
    (event : Request Rest) (w : World σ Rest)
    (h : (event.PathParameters.lookup (lit "cohort")).getD [] = []) :
    Handler api repository event w =
      ((api.Failure (GoError.New 400 (lit "Invalid request: cohort is required") (lit "")), none),
        log.Infof (lit "Event: %#v") event (log.SetRequestId event.RequestContext.RequestID w)) := by
  simp [Handler, lit_empty, h]

/-- The handler on a request with a cohort and no `id`. -/
theorem Handler_id_missing (api : Api Rest Game Response) (repository : GameDeleter σ Game)
    (event : Request Rest) (w : World σ Rest)
    (hc : (event.PathParameters.lookup (lit "cohort")).getD [] ≠ [])
    (hid : event.PathParameters.lookup (lit "id") = none) :
    Handler api repository event w =
      ((api.Failure (GoError.New 400 (lit "Invalid request: id is required") (lit "")), none),
        log.Infof (lit "Event: %#v") event (log.SetRequestId event.RequestContext.RequestID w)) := by
  simp [Handler, lit_empty, hc, hid]

/-- The handler on a request whose `id` the decoder rejects. -/
theorem Handler_id_undecodable (api : Api Rest Game Response) (repository : GameDeleter σ Game)
    (event : Request Rest) (w : World σ Rest) (i : GoString) (e : GoError)
    (hc : (event.PathParameters.lookup (lit "cohort")).getD [] ≠ [])
    (hid : event.PathParameters.lookup (lit "id") = some i)
    (hdec : (base64.StdEncoding.DecodeString i).2 = some e) :
    Handler api repository event w =
      ((api.Failure (GoError.Wrap 400 (lit "Invalid request: id is not base64 encoded")
          (lit "") e), none),
        log.Infof (lit "Event: %#v") event (log.SetRequestId event.RequestContext.RequestID w)) := by
  rcases hd : base64.StdEncoding.DecodeString i with ⟨b, r⟩
  rw [hd] at hdec
  simp only at hdec
  subst hdec
  simp [Handler, lit_empty, hc, hid, hd]

/-- The handler on a request that passes the three checks: one call of the
collaborator, whose result decides the response. -/
theorem Handler_valid (api : Api Rest Game Response) (repository : GameDeleter σ Game)
    (event : Request Rest) (w : World σ Rest) (i : GoString)
    (hc : (event.PathParameters.lookup (lit "cohort")).getD [] ≠ [])
    (hid : event.PathParameters.lookup (lit "id") = some i)
    (hdec : (base64.StdEncoding.DecodeString i).2 = none) :
    Handler api repository event w =
      ((match (repository.DeleteGame (api.GetUserInfo event).Username
            ((event.PathParameters.lookup (lit "cohort")).getD [])
            (base64.StdEncoding.DecodeString i).1 w.db).1 with
        | (_, some err) => api.Failure err
        | (game, none) => api.Success game, none),
        { db := (repository.DeleteGame (api.GetUserInfo event).Username
            ((event.PathParameters.lookup (lit "cohort")).getD [])
            (base64.StdEncoding.DecodeString i).1 w.db).2
          trace := w.trace ++ [Event.SetRequestId event.RequestContext.RequestID,
            Event.Infof (lit "Event: %#v") event,
            Event.DeleteGame (api.GetUserInfo event).Username
              ((event.PathParameters.lookup (lit "cohort")).getD [])
              (base64.StdEncoding.DecodeString i).1] }) := by
  rcases hd : base64.StdEncoding.DecodeString i with ⟨b, r⟩
  rw [hd] at hdec
  simp only at hdec
  subst hdec
  simp only [Handler, lit_empty, hc, hid, hd, if_false, callDeleteGame, log.Infof,
    log.SetRequestId]
  rcases hr : repository.DeleteGame (api.GetUserInfo event).Username
      ((event.PathParameters.lookup (lit "cohort")).getD []) b w.db with ⟨⟨g, _ | err⟩, db⟩ <;>
    simp

/-- An `id` that is present but empty passes the presence check and decodes to
the empty string: the collaborator is called with the empty id. -/
theorem Handler_empty_id (api : Api Rest Game Response) (repository : GameDeleter σ Game)
    (event : Request Rest) (w : World σ Rest)
    (hc : (event.PathParameters.lookup (lit "cohort")).getD [] ≠ [])
    (hid : event.PathParameters.lookup (lit "id") = some []) :
    (Handler api repository event w).2.trace =
      w.trace ++ [Event.SetRequestId event.RequestContext.RequestID,
        Event.Infof (lit "Event: %#v") event,
        Event.DeleteGame (api.GetUserInfo event).Username
          ((event.PathParameters.lookup (lit "cohort")).getD []) []] := by
  have hd : base64.StdEncoding.DecodeString [] = ([], none) := rfl
  rw [Handler_valid api repository event w [] hc hid (by rw [hd])]
  simp [hd]

/-- If the handler called the collaborator, the three checks passed. -/
theorem Handler_call_implies_checks (api : Api Rest Game Response)
    (repository : GameDeleter σ Game) (event : Request Rest) (w : World σ Rest)
    (h : (Handler api repository event w).2.trace ≠
      (log.Infof (lit "Event: %#v") event
        (log.SetRequestId event.RequestContext.RequestID w)).trace) :
    passesValidation event := by
  by_cases hc : (event.PathParameters.lookup (lit "cohort")).getD [] = []
  · exact absurd (by rw [Handler_cohort_missing _ _ _ _ hc]) h
  · cases hi : event.PathParameters.lookup (lit "id") with
    | none => exact absurd (by rw [Handler_id_missing _ _ _ _ hc hi]) h
    | some i =>
      cases hd : (base64.StdEncoding.DecodeString i).2 with
      | some e => exact absurd (by rw [Handler_id_undecodable _ _ _ _ i e hc hi hd]) h
      | none => exact ⟨hc, by simp [idPresent, hi], by simp [idDecodable, hi, hd]⟩

theorem deleteCalls_append (t u : List (Event Rest)) :
    deleteCalls (t ++ u) = deleteCalls t ++ deleteCalls u := by
  simp [deleteCalls]

theorem deleteCalls_logged (event : Request Rest) (w : World σ Rest) :
    deleteCalls
      (log.Infof (lit "Event: %#v") event
        (log.SetRequestId event.RequestContext.RequestID w)).trace = deleteCalls w.trace := by
  simp [log.Infof, log.SetRequestId, deleteCalls]

end HandlerFacts

/-! ## Properties of the handler -/

section Claims

variable {σ Rest Game Response : Type}

/-- C1: a request whose path parameters lack `cohort`, or map it to the empty
string, is answered with `api.Failure` of the error with status code 400 and
message "Invalid request: cohort is required" and a nil Go error, whatever the
`id`, the user and the repository are; `repository.DeleteGame` is not invoked
and the store is untouched. The response is the same in both cases. -/
theorem C1_cohort_required (api : Api Rest Game Response) (repository : GameDeleter σ Game)
    (event : Request Rest) (w : World σ Rest)
    (h : event.PathParameters.lookup (lit "cohort") = none ∨
      event.PathParameters.lookup (lit "cohort") = some (lit "")) :
    (Handler api repository event w).1 =
        (api.Failure (GoError.New 400 (lit "Invalid request: cohort is required") (lit "")),
          none) ∧
      deleteCalls (Handler api repository event w).2.trace = deleteCalls w.trace ∧
      (Handler api repository event w).2.db = w.db := by
  have hc : (event.PathParameters.lookup (lit "cohort")).getD [] = [] := by
    rcases h with h | h <;> simp [h, lit_empty]
  rw [Handler_cohort_missing api repository event w hc]
  exact ⟨rfl, deleteCalls_logged event w, rfl⟩

/-- C1 at a request without `cohort` and at a request with an empty `cohort`. -/
theorem C1_cohort_required_witness :
    ((sampleEvent "alice" [("id", "Z2FtZTQy")]).PathParameters.lookup (lit "cohort") = none ∧
      (Handler sampleApi sampleRepository (sampleEvent "alice" [("id", "Z2FtZTQy")])
        sampleWorld).1 =
        (SampleResponse.failure
          (GoError.New 400 (lit "Invalid request: cohort is required") (lit "")), none)) ∧
    ((sampleEvent "alice" [("cohort", ""), ("id", "Z2FtZTQy")]).PathParameters.lookup
        (lit "cohort") = some (lit "") ∧
      (Handler sampleApi sampleRepository
        (sampleEvent "alice" [("cohort", ""), ("id", "Z2FtZTQy")]) sampleWorld).1 =
        (SampleResponse.failure
          (GoError.New 400 (lit "Invalid request: cohort is required") (lit "")), none)) :=
  ⟨⟨by decide, (C1_cohort_required sampleApi sampleRepository
      (sampleEvent "alice" [("id", "Z2FtZTQy")]) sampleWorld (Or.inl (by decide))).1⟩,
   ⟨by decide, (C1_cohort_required sampleApi sampleRepository
      (sampleEvent "alice" [("cohort", ""), ("id", "Z2FtZTQy")]) sampleWorld
      (Or.inr (by decide))).1⟩⟩

/-- C2: a request with a non-empty `cohort` and no `id` key is answered with
`api.Failure` of the error with status code 400 and message "Invalid request:
id is required" and a nil Go error; `repository.DeleteGame` is not invoked and
the store is untouched. -/
theorem C2_id_required (api : Api Rest Game Response) (repository : GameDeleter σ Game)
    (event : Request Rest) (w : World σ Rest) (c : GoString)
    (hc : event.PathParameters.lookup (lit "cohort") = some c) (hne : c ≠ lit "")
    (hid : event.PathParameters.lookup (lit "id") = none) :
    (Handler api repository event w).1 =
        (api.Failure (GoError.New 400 (lit "Invalid request: id is required") (lit "")),
          none) ∧
      deleteCalls (Handler api repository event w).2.trace = deleteCalls w.trace ∧
      (Handler api repository event w).2.db = w.db := by
  have hc2 : (event.PathParameters.lookup (lit "cohort")).getD [] ≠ [] := by
    simpa [hc, lit_empty] using hne
  rw [Handler_id_missing api repository event w hc2 hid]
  exact ⟨rfl, deleteCalls_logged event w, rfl⟩

/-- C2 at the request of `alice` for cohort `1500-1600` without an `id`. -/
theorem C2_id_required_witness :
    (sampleEvent "alice" [("cohort", "1500-1600")]).PathParameters.lookup (lit "cohort") =
        some (lit "1500-1600") ∧
      lit "1500-1600" ≠ lit "" ∧
      (sampleEvent "alice" [("cohort", "1500-1600")]).PathParameters.lookup (lit "id") = none ∧
      (Handler sampleApi sampleRepository (sampleEvent "alice" [("cohort", "1500-1600")])
        sampleWorld).1 =
        (SampleResponse.failure
          (GoError.New 400 (lit "Invalid request: id is required") (lit "")), none) :=
  ⟨by decide, by decide, by decide,
    (C2_id_required sampleApi sampleRepository (sampleEvent "alice" [("cohort", "1500-1600")])
      sampleWorld (lit "1500-1600") (by decide) (by decide) (by decide)).1⟩

/-- C3: a request with a non-empty `cohort` and an `id` that standard base64
decoding rejects with error `e` is answered with `api.Failure` of the error
with status code 400, message "Invalid request: id is not base64 encoded" and
`e` as its wrapped cause, and a nil Go error; `repository.DeleteGame` is not
invoked and the store is untouched. -/
theorem C3_id_not_base64 (api : Api Rest Game Response) (repository : GameDeleter σ Game)
    (event : Request Rest) (w : World σ Rest) (c i : GoString) (e : GoError)
    (hc : event.PathParameters.lookup (lit "cohort") = some c) (hne : c ≠ lit "")
    (hid : event.PathParameters.lookup (lit "id") = some i)
    (hdec : (base64.StdEncoding.DecodeString i).2 = some e) :
    (∃ err, (Handler api repository event w).1 = (api.Failure err, none) ∧
        err = GoError.Wrap 400 (lit "Invalid request: id is not base64 encoded") (lit "") e ∧
        err.Code = some 400 ∧
        err.PublicMessage = some (lit "Invalid request: id is not base64 encoded") ∧
        err.Cause = some e) ∧
      deleteCalls (Handler api repository event w).2.trace = deleteCalls w.trace ∧
      (Handler api repository event w).2.db = w.db := by
  have hc2 : (event.PathParameters.lookup (lit "cohort")).getD [] ≠ [] := by
    simpa [hc, lit_empty] using hne
  rw [Handler_id_undecodable api repository event w i e hc2 hid hdec]
  exact ⟨⟨_, rfl, rfl, rfl, rfl, rfl⟩, deleteCalls_logged event w, rfl⟩

/-- C3 at an `id` containing `!` (rejected at offset 4) and at an `id` with
wrong padding (`AA=`, rejected at offset 3). -/
theorem C3_id_not_base64_witness :
    ((base64.StdEncoding.DecodeString (lit "Z2Ft!TQy")).2 =
        some (GoError.CorruptInputError 4) ∧
      deleteCalls (Handler sampleApi sampleRepository
        (sampleEvent "alice" [("cohort", "1500-1600"), ("id", "Z2Ft!TQy")])
        sampleWorld).2.trace = []) ∧
    ((base64.StdEncoding.DecodeString (lit "AA=")).2 = some (GoError.CorruptInputError 3) ∧
      deleteCalls (Handler sampleApi sampleRepository
        (sampleEvent "alice" [("cohort", "1500-1600"), ("id", "AA=")])
        sampleWorld).2.trace = []) :=
  ⟨⟨by decide, (C3_id_not_base64 sampleApi sampleRepository
      (sampleEvent "alice" [("cohort", "1500-1600"), ("id", "Z2Ft!TQy")]) sampleWorld
      (lit "1500-1600") (lit "Z2Ft!TQy") (GoError.CorruptInputError 4)
      (by decide) (by decide) (by decide) (by decide)).2.1⟩,
   ⟨by decide, (C3_id_not_base64 sampleApi sampleRepository
      (sampleEvent "alice" [("cohort", "1500-1600"), ("id", "AA=")]) sampleWorld
      (lit "1500-1600") (lit "AA=") (GoError.CorruptInputError 3)
      (by decide) (by decide) (by decide) (by decide)).2.1⟩⟩

/-- C4: for every username `u`, every non-empty cohort `c` and every byte string
`s`, a request whose user info yields `u`, whose `cohort` is `c` and whose `id`
is the standard padded base64 encoding of `s` makes the handler invoke
`repository.DeleteGame` exactly once, with the arguments `(u, c, s)`: the
handler adds to the trace its two log entries and the single call
`DeleteGame u c s`, and the store is the one this call leaves. -/
theorem C4_delete_invoked_once (api : Api Rest Game Response)
    (repository : GameDeleter σ Game) (event : Request Rest) (w : World σ Rest)
    (u c : GoString) (s : List Byte)
    (hu : (api.GetUserInfo event).Username = u)
    (hc : event.PathParameters.lookup (lit "cohort") = some c) (hne : c ≠ lit "")
    (hid : event.PathParameters.lookup (lit "id") =
      some (base64.StdEncoding.EncodeToString s)) :
    (Handler api repository event w).2.trace =
        w.trace ++ [Event.SetRequestId event.RequestContext.RequestID,
          Event.Infof (lit "Event: %#v") event, Event.DeleteGame u c s] ∧
      deleteCalls (Handler api repository event w).2.trace =
        deleteCalls w.trace ++ [(u, c, s)] ∧
      (Handler api repository event w).2.db = (repository.DeleteGame u c s w.db).2 := by
  have hc2 : (event.PathParameters.lookup (lit "cohort")).getD [] ≠ [] := by
    simpa [hc, lit_empty] using hne
  have hdec := base64.DecodeString_EncodeToString s
  rw [Handler_valid api repository event w _ hc2 hid (by rw [hdec])]
  simp [hdec, hu, hc, deleteCalls_append, deleteCalls]

/-- C4 at `u = "alice"`, `c = "1500-1600"`, `s = "game42"`, whose encoding is
`Z2FtZTQy`. -/
theorem C4_delete_invoked_once_witness :
    base64.StdEncoding.EncodeToString (lit "game42") = lit "Z2FtZTQy" ∧
      deleteCalls (Handler sampleApi sampleRepository
        (sampleEvent "alice" [("cohort", "1500-1600"), ("id", "Z2FtZTQy")])
        sampleWorld).2.trace = [(lit "alice", lit "1500-1600", lit "game42")] :=
  ⟨by decide, (C4_delete_invoked_once sampleApi sampleRepository
      (sampleEvent "alice" [("cohort", "1500-1600"), ("id", "Z2FtZTQy")]) sampleWorld
      (lit "alice") (lit "1500-1600") (lit "game42")
      (by decide) (by decide) (by decide) (by decide)).2.1⟩

/-- C5: for a request that passes validation (non-empty `cohort` `c`, `id`
present and decoded without error to `b`), if `repository.DeleteGame` returns
the record `g` with a nil error, the handler returns `api.Success g` and a nil
Go error. -/
theorem C5_success_wraps_record (api : Api Rest Game Response)
    (repository : GameDeleter σ Game) (event : Request Rest) (w : World σ Rest)
    (c i b : GoString) (g : Game) (db : σ)
    (hc : event.PathParameters.lookup (lit "cohort") = some c) (hne : c ≠ lit "")
    (hid : event.PathParameters.lookup (lit "id") = some i)
    (hdec : base64.StdEncoding.DecodeString i = (b, none))
    (hrepo : repository.DeleteGame (api.GetUserInfo event).Username c b w.db =
      ((g, none), db)) :
    (Handler api repository event w).1 = (api.Success g, none) := by
  have hc2 : (event.PathParameters.lookup (lit "cohort")).getD [] ≠ [] := by
    simpa [hc, lit_empty] using hne
  rw [Handler_valid api repository event w i hc2 hid (by rw [hdec])]
  simp [hdec, hc, hrepo]

/-- C5 at the request of `alice` for her stored game `game42`. -/
theorem C5_success_wraps_record_witness :
    sampleRepository.DeleteGame (lit "alice") (lit "1500-1600") (lit "game42")
        sampleWorld.db = ((lit "game42", none), []) ∧
      (Handler sampleApi sampleRepository
        (sampleEvent "alice" [("cohort", "1500-1600"), ("id", "Z2FtZTQy")])
        sampleWorld).1 = (SampleResponse.success (lit "game42"), none) :=
  ⟨by decide, C5_success_wraps_record sampleApi sampleRepository
      (sampleEvent "alice" [("cohort", "1500-1600"), ("id", "Z2FtZTQy")]) sampleWorld
      (lit "1500-1600") (lit "Z2FtZTQy") (lit "game42") (lit "game42") []
      (by decide) (by decide) (by decide) (by decide) (by decide)⟩

/-- C6: for a request that passes validation, if `repository.DeleteGame` returns
a non-nil error `e`, the handler returns `api.Failure e`, built from the very
error of the collaborator, and a nil Go error; the collaborator was called
exactly once (no second attempt) and the store is the one that call left. -/
theorem C6_collaborator_error_unchanged (api : Api Rest Game Response)
    (repository : GameDeleter σ Game) (event : Request Rest) (w : World σ Rest)
    (c i b : GoString) (g : Game) (e : GoError) (db : σ)
    (hc : event.PathParameters.lookup (lit "cohort") = some c) (hne : c ≠ lit "")
    (hid : event.PathParameters.lookup (lit "id") = some i)
    (hdec : base64.StdEncoding.DecodeString i = (b, none))
    (hrepo : repository.DeleteGame (api.GetUserInfo event).Username c b w.db =
      ((g, some e), db)) :
    (Handler api repository event w).1 = (api.Failure e, none) ∧
      deleteCalls (Handler api repository event w).2.trace =
        deleteCalls w.trace ++ [((api.GetUserInfo event).Username, c, b)] ∧
      (Handler api repository event w).2.db = db := by
  have hc2 : (event.PathParameters.lookup (lit "cohort")).getD [] ≠ [] := by
    simpa [hc, lit_empty] using hne
  rw [Handler_valid api repository event w i hc2 hid (by rw [hdec])]
  simp [hdec, hc, hrepo, deleteCalls_append, deleteCalls]

/-- C6 at the request of `bob` for a game he does not own: the collaborator
answers with a 404 error, which is the error of the response. -/
theorem C6_collaborator_error_unchanged_witness :
    sampleRepository.DeleteGame (lit "bob") (lit "1500-1600") (lit "game42")
        sampleWorld.db =
        ((([] : GoString), some (GoError.New 404 (lit "Invalid request: game not found") [])),
          sampleWorld.db) ∧
      (Handler sampleApi sampleRepository
        (sampleEvent "bob" [("cohort", "1500-1600"), ("id", "Z2FtZTQy")])
        sampleWorld).1 =
        (SampleResponse.failure (GoError.New 404 (lit "Invalid request: game not found") []),
          none) :=
  ⟨by decide, (C6_collaborator_error_unchanged sampleApi sampleRepository
      (sampleEvent "bob" [("cohort", "1500-1600"), ("id", "Z2FtZTQy")]) sampleWorld
      (lit "1500-1600") (lit "Z2FtZTQy") (lit "game42") []
      (GoError.New 404 (lit "Invalid request: game not found") []) sampleWorld.db
      (by decide) (by decide) (by decide) (by decide) (by decide)).1⟩

/-- C7: for every request, every world and every repository, the Go error that
the handler returns (the second component of its result) is nil. -/
theorem C7_error_always_nil (api : Api Rest Game Response) (repository : GameDeleter σ Game)
    (event : Request Rest) (w : World σ Rest) :
    (Handler api repository event w).1.2 = none := by
  unfold Handler
  simp only
  split_ifs
  · rfl
  · split
    · rfl
    · split
      · rfl
      · split <;> rfl


/-- C8 at the failing input: a request of `alice` with cohort `1500-1600` and an
`id` parameter that is present but empty. The empty string passes the presence
check, decodes without error to the empty string, and `repository.DeleteGame`
is invoked with the empty id. -/
theorem C8_empty_id_reaches_repository :
    (sampleEvent "alice" [("cohort", "1500-1600"), ("id", "")]).PathParameters.lookup
        (lit "id") = some (lit "") ∧
      base64.StdEncoding.DecodeString (lit "") = ([], none) ∧
      deleteCalls (Handler sampleApi sampleRepository
        (sampleEvent "alice" [("cohort", "1500-1600"), ("id", "")]) sampleWorld).2.trace =
        [(lit "alice", lit "1500-1600", lit "")] := by
  decide

/-- C9: two invocations whose requests have the same `cohort` and the same `id`
path parameters (same presence, same values) and fail validation are answered
with `Failure` of one and the same error, of status code 400 and with a
message, and a nil Go error, whatever the users, the other request fields, the
worlds and the repositories of the two invocations are. -/
theorem C9_validation_deterministic {σ₁ σ₂ Rest₁ Rest₂ Game₁ Game₂ Response₁ Response₂ : Type}
    (api₁ : Api Rest₁ Game₁ Response₁) (api₂ : Api Rest₂ Game₂ Response₂)
    (repository₁ : GameDeleter σ₁ Game₁) (repository₂ : GameDeleter σ₂ Game₂)
    (event₁ : Request Rest₁) (event₂ : Request Rest₂)
    (w₁ : World σ₁ Rest₁) (w₂ : World σ₂ Rest₂)
    (hcohort : event₁.PathParameters.lookup (lit "cohort") =
      event₂.PathParameters.lookup (lit "cohort"))
    (hid : event₁.PathParameters.lookup (lit "id") = event₂.PathParameters.lookup (lit "id"))
    (hfail : ¬ passesValidation event₁) :
    ∃ err msg, err.Code = some 400 ∧ err.PublicMessage = some msg ∧
      (Handler api₁ repository₁ event₁ w₁).1 = (api₁.Failure err, none) ∧
      (Handler api₂ repository₂ event₂ w₂).1 = (api₂.Failure err, none) := by
  by_cases hc : (event₁.PathParameters.lookup (lit "cohort")).getD [] = []
  · have hc2 : (event₂.PathParameters.lookup (lit "cohort")).getD [] = [] := by
      rw [← hcohort]; exact hc
    exact ⟨GoError.New 400 (lit "Invalid request: cohort is required") (lit ""),
      lit "Invalid request: cohort is required", rfl, rfl,
      by rw [Handler_cohort_missing _ _ _ _ hc], by rw [Handler_cohort_missing _ _ _ _ hc2]⟩
  · have hc2 : (event₂.PathParameters.lookup (lit "cohort")).getD [] ≠ [] := by
      rw [← hcohort]; exact hc
    cases hi : event₁.PathParameters.lookup (lit "id") with
    | none =>
      exact ⟨GoError.New 400 (lit "Invalid request: id is required") (lit ""),
        lit "Invalid request: id is required", rfl, rfl,
        by rw [Handler_id_missing _ _ _ _ hc hi],
        by rw [Handler_id_missing _ _ _ _ hc2 (hid ▸ hi)]⟩
    | some i =>
      cases hd : (base64.StdEncoding.DecodeString i).2 with
      | none =>
        exact absurd ⟨hc, by simp [idPresent, hi], by simp [idDecodable, hi, hd]⟩ hfail
      | some e =>
        exact ⟨GoError.Wrap 400 (lit "Invalid request: id is not base64 encoded") (lit "") e,
          lit "Invalid request: id is not base64 encoded", rfl, rfl,
          by rw [Handler_id_undecodable _ _ _ _ i e hc hi hd],
          by rw [Handler_id_undecodable _ _ _ _ i e hc2 (hid ▸ hi) hd]⟩

/-- C9 at two requests with the same undecodable `id`, made by different users
against different stores. -/
theorem C9_validation_deterministic_witness :
    ¬ passesValidation (sampleEvent "alice" [("cohort", "1500-1600"), ("id", "Z2Ft!TQy")]) ∧
      ∃ err msg, err.Code = some 400 ∧ err.PublicMessage = some msg ∧
        (Handler sampleApi sampleRepository
          (sampleEvent "alice" [("cohort", "1500-1600"), ("id", "Z2Ft!TQy")])
          sampleWorld).1 = (sampleApi.Failure err, none) ∧
        (Handler sampleApi sampleRepository
          (sampleEvent "bob" [("id", "Z2Ft!TQy"), ("cohort", "1500-1600")])
          { db := [], trace := [] }).1 = (sampleApi.Failure err, none) :=
  ⟨by decide, C9_validation_deterministic sampleApi sampleApi sampleRepository
    sampleRepository (sampleEvent "alice" [("cohort", "1500-1600"), ("id", "Z2Ft!TQy")])
    (sampleEvent "bob" [("id", "Z2Ft!TQy"), ("cohort", "1500-1600")])
    sampleWorld { db := [], trace := [] } (by decide) (by decide) (by decide)⟩

/-- C10: the handler checks, in this order, that `cohort` is non-empty, that
`id` is present and that `id` decodes, and the first check that fails decides
the response: without a cohort the answer is the "cohort is required" error
whatever the `id` is; with a cohort and no `id` it is "id is required"; with a
cohort and an `id` that does not decode it is "id is not base64 encoded". The
calls of `repository.DeleteGame` made by one invocation are at most one, and
exactly one if and only if the three checks pass. -/
theorem C10_checks_in_order {σ Rest Game Response : Type} (api : Api Rest Game Response)
    (repository : GameDeleter σ Game) (event : Request Rest) (w : World σ Rest) :
    (¬ cohortGiven event →
        (Handler api repository event w).1 = (api.Failure
          (GoError.New 400 (lit "Invalid request: cohort is required") (lit "")), none)) ∧
      (cohortGiven event → ¬ idPresent event →
        (Handler api repository event w).1 = (api.Failure
          (GoError.New 400 (lit "Invalid request: id is required") (lit "")), none)) ∧
      (cohortGiven event → idPresent event → ¬ idDecodable event →
        ∃ e, (Handler api repository event w).1 = (api.Failure
          (GoError.Wrap 400 (lit "Invalid request: id is not base64 encoded") (lit "") e),
          none)) ∧
      ∃ new, deleteCalls (Handler api repository event w).2.trace =
          deleteCalls w.trace ++ new ∧
        new.length ≤ 1 ∧ (new.length = 1 ↔ passesValidation event) := by
  by_cases hc : (event.PathParameters.lookup (lit "cohort")).getD [] = []
  · have hn : ¬ cohortGiven event := fun h => h hc
    refine ⟨fun _ => by rw [Handler_cohort_missing _ _ _ _ hc], fun h => absurd h hn,
      fun h => absurd h hn, [], ?_, by simp, ?_⟩
    · rw [Handler_cohort_missing _ _ _ _ hc, deleteCalls_logged]; simp
    · simp [passesValidation, hn]
  · have hg : cohortGiven event := hc
    cases hi : event.PathParameters.lookup (lit "id") with
    | none =>
      have hn : ¬ idPresent event := fun h => h hi
      refine ⟨fun h => absurd hg h, fun _ _ => by rw [Handler_id_missing _ _ _ _ hc hi],
        fun _ h => absurd h hn, [], ?_, by simp, ?_⟩
      · rw [Handler_id_missing _ _ _ _ hc hi, deleteCalls_logged]; simp
      · simp [passesValidation, hn]
    | some i =>
      have hp : idPresent event := by simp [idPresent, hi]
      cases hd : (base64.StdEncoding.DecodeString i).2 with
      | some e =>
        have hn : ¬ idDecodable event := by simp [idDecodable, hi, hd]
        refine ⟨fun h => absurd hg h, fun _ h => absurd hp h,
          fun _ _ _ => ⟨e, by rw [Handler_id_undecodable _ _ _ _ i e hc hi hd]⟩, [], ?_,
          by simp, ?_⟩
        · rw [Handler_id_undecodable _ _ _ _ i e hc hi hd, deleteCalls_logged]; simp
        · simp [passesValidation, hn]
      | none =>
        have hdc : idDecodable event := by simp [idDecodable, hi, hd]
        refine ⟨fun h => absurd hg h, fun _ h => absurd hp h, fun _ _ h => absurd hdc h,
          [((api.GetUserInfo event).Username,
            (event.PathParameters.lookup (lit "cohort")).getD [],
            (base64.StdEncoding.DecodeString i).1)], ?_, by simp, ?_⟩
        · rw [Handler_valid _ _ _ _ i hc hi hd]
          simp [deleteCalls_append, deleteCalls]
        · simp [passesValidation, hg, hp, hdc]

/-- C10 at a request without cohort and with an undecodable `id` (the cohort
error wins), and at a request whose `id` decodes without being canonical (a
newline inside, non-zero trailing bits before the padding): that request passes
the three checks. -/
theorem C10_checks_in_order_witness :
    (¬ cohortGiven (sampleEvent "alice" [("id", "Z2Ft!TQy")]) ∧
      (Handler sampleApi sampleRepository (sampleEvent "alice" [("id", "Z2Ft!TQy")])
        sampleWorld).1 = (sampleApi.Failure
          (GoError.New 400 (lit "Invalid request: cohort is required") (lit "")), none)) ∧
    (base64.StdEncoding.EncodeToString (lit "sure") = lit "c3VyZQ==" ∧
      base64.StdEncoding.DecodeString (lit "c3Vy\nZR==") = (lit "sure", none) ∧
      passesValidation (sampleEvent "alice" [("cohort", "1500-1600"), ("id", "c3Vy\nZR==")]) ∧
      ∃ new, deleteCalls (Handler sampleApi sampleRepository
          (sampleEvent "alice" [("cohort", "1500-1600"), ("id", "c3Vy\nZR==")])
          sampleWorld).2.trace = deleteCalls sampleWorld.trace ++ new ∧
        new.length ≤ 1 ∧ (new.length = 1 ↔ passesValidation
          (sampleEvent "alice" [("cohort", "1500-1600"), ("id", "c3Vy\nZR==")]))) :=
  ⟨⟨by decide, (C10_checks_in_order sampleApi sampleRepository
      (sampleEvent "alice" [("id", "Z2Ft!TQy")]) sampleWorld).1 (by decide)⟩,
    by decide, by decide, by decide,
    (C10_checks_in_order sampleApi sampleRepository
      (sampleEvent "alice" [("cohort", "1500-1600"), ("id", "c3Vy\nZR==")])
      sampleWorld).2.2.2⟩

end Claims
